import Mathlib

/-!
# Verification of the alchemaybe match engine

A shallow embedding of the match state machine and crafting/placement
protocol of the `game` server (`src/game/src/card_cache.rs`,
`src/game/src/game_state.rs`, `src/game/src/game_api.rs`), together with
proofs of the specification's claims about it.

External collaborators (the generation Oracle, the Renderer, the file
system, the random number generator) are modelled as explicit inputs:
each operation takes the responses those collaborators would give as a
parameter and records which Oracle endpoints it contacted in a call
trace. Machine integers (`u32` scores) are modelled as `Nat`;
`u32::saturating_sub` is `Nat` subtraction, which is saturating.
-/

namespace Alchemaybe

/-! ## SHA-256 (the `sha2` crate digest used by `card_cache.rs`)

A byte-level implementation over `Nat`, with 32-bit words represented as
naturals reduced mod `2^32`.  Verified against the FIPS 180-4 test
vectors during development. -/

/-- Truncate to 32 bits. -/
def w32 (n : Nat) : Nat := n % 4294967296

/-- 32-bit rotate right (input assumed `< 2^32`). -/
def rotr32 (x n : Nat) : Nat := w32 ((x >>> n) ||| (x <<< (32 - n)))

def sumSigA (x : Nat) : Nat := rotr32 x 2 ^^^ rotr32 x 13 ^^^ rotr32 x 22
def sumSigE (x : Nat) : Nat := rotr32 x 6 ^^^ rotr32 x 11 ^^^ rotr32 x 25
def schedSig0 (x : Nat) : Nat := rotr32 x 7 ^^^ rotr32 x 18 ^^^ (x >>> 3)
def schedSig1 (x : Nat) : Nat := rotr32 x 17 ^^^ rotr32 x 19 ^^^ (x >>> 10)
def sha256Ch (e f g : Nat) : Nat := (e &&& f) ^^^ ((0xffffffff ^^^ e) &&& g)
def sha256Maj (a b c : Nat) : Nat := (a &&& b) ^^^ (a &&& c) ^^^ (b &&& c)

/-- The initial hash state (FIPS 180-4 section 5.3.3, in decimal). -/
def sha256InitH : List Nat :=
  [1779033703, 3144134277, 1013904242,
   2773480762, 1359893119, 2600822924,
   528734635, 1541459225]

/-- The 64 round constants (FIPS 180-4 section 4.2.2, in decimal). -/
def sha256K : List Nat :=
  [1116352408, 1899447441, 3049323471, 3921009573, 961987163,
   1508970993, 2453635748, 2870763221, 3624381080, 310598401,
   607225278, 1426881987, 1925078388, 2162078206, 2614888103,
   3248222580, 3835390401, 4022224774, 264347078, 604807628,
   770255983, 1249150122, 1555081692, 1996064986, 2554220882,
   2821834349, 2952996808, 3210313671, 3336571891, 3584528711,
   113926993, 338241895, 666307205, 773529912, 1294757372,
   1396182291, 1695183700, 1986661051, 2177026350, 2456956037,
   2730485921, 2820302411, 3259730800, 3345764771, 3516065817,
   3600352804, 4094571909, 275423344, 430227734, 506948616,
   659060556, 883997877, 958139571, 1322822218, 1537002063,
   1747873779, 1955562222, 2024104815, 2227730452, 2361852424,
   2428436474, 2756734187, 3204031479, 3329325298]

/-- Big-endian byte encoding of `n` in `k` bytes. -/
def bytesBE (k n : Nat) : List Nat :=
  (List.range k).map (fun i => (n >>> (8 * (k - 1 - i))) % 256)

/-- SHA-256 padding: append `0x80`, zeros, and the 64-bit big-endian bit length. -/
def padMessage (msg : List Nat) : List Nat :=
  let L := msg.length
  let zeros := (64 - ((L + 9) % 64)) % 64
  msg ++ [0x80] ++ List.replicate zeros 0 ++ bytesBE 8 (8 * L)

/-- Group bytes into big-endian 32-bit words. -/
def toWords : List Nat → List Nat
  | b0 :: b1 :: b2 :: b3 :: rest =>
    (b0 <<< 24 ||| b1 <<< 16 ||| b2 <<< 8 ||| b3) :: toWords rest
  | _ => []

/-- Extend the 16-word block to the 64-word message schedule. -/
def extendSchedule : Nat → List Nat → List Nat
  | 0, ws => ws
  | n + 1, ws =>
    let i := ws.length
    let w := w32 (schedSig1 (ws.getD (i - 2) 0) + ws.getD (i - 7) 0 +
                  schedSig0 (ws.getD (i - 15) 0) + ws.getD (i - 16) 0)
    extendSchedule n (ws ++ [w])

def sha256Round (st : List Nat) (wk : Nat × Nat) : List Nat :=
  match st with
  | [a, b, c, d, e, f, g, h] =>
    let t1 := w32 (h + sumSigE e + sha256Ch e f g + wk.2 + wk.1)
    let t2 := w32 (sumSigA a + sha256Maj a b c)
    [w32 (t1 + t2), a, b, c, w32 (d + t1), e, f, g]
  | st => st

def processBlock (hs : List Nat) (block : List Nat) : List Nat :=
  let ws := extendSchedule 48 (toWords block)
  let st := (ws.zip sha256K).foldl sha256Round hs
  (hs.zip st).map (fun p => w32 (p.1 + p.2))

def chunks64 : List Nat → List (List Nat)
  | [] => []
  | x :: rest => (x :: rest).take 64 :: chunks64 ((x :: rest).drop 64)
termination_by l => l.length
decreasing_by simp; omega

/-- The SHA-256 digest (32 bytes) of a byte string. -/
def sha256Bytes (msg : List Nat) : List Nat :=
  let hs := (chunks64 (padMessage msg)).foldl processBlock sha256InitH
  (hs.map (bytesBE 4)).flatten

def hexDigit (n : Nat) : Char :=
  if n < 10 then Char.ofNat ('0'.toNat + n) else Char.ofNat ('a'.toNat + n - 10)

def byteHex (b : Nat) : List Char := [hexDigit (b / 16), hexDigit (b % 16)]

/-- Lowercase hex rendering of a byte string (Rust `format!` with the lower-hex
formatter on a digest). -/
def bytesHex (bs : List Nat) : String := ⟨(bs.map byteHex).flatten⟩

/-- The UTF-8 bytes of a string (Rust `str::as_bytes`). -/
def strBytes (s : String) : List Nat := s.toUTF8.toList.map (·.toNat)

/-- Lowercase hex SHA-256 digest of a string, as `format!` renders it. -/
def sha256HexOf (s : String) : String := bytesHex (sha256Bytes (strBytes s))

/-! ## `card_cache.rs` -/

/-- `CachedCard` (card_cache.rs). -/
structure CachedCard where
  name : String
  description : String
  image_path : String
  id : String
  discovered : Bool
  impossible : Bool
deriving Repr, DecidableEq

/-- `CardCache.entries` — the `HashMap<String, CachedCard>` modelled as an
association list; `insert` prepends and `get` takes the first match, which
gives the map's insert-overwrites semantics. -/
def Cache : Type := List (String × CachedCard)

instance : DecidableEq Cache := inferInstanceAs (DecidableEq (List (String × CachedCard)))

/-- `CardCache::get`. -/
def lookupCache (c : Cache) (key : String) : Option CachedCard :=
  (List.find? (fun p => p.1 == key) c).map (·.2)

/-- `CardCache::insert`. -/
def insertCache (c : Cache) (key : String) (card : CachedCard) : Cache :=
  (key, card) :: c

/-- `str::to_lowercase` (its ASCII behaviour; the names involved are ASCII). -/
def strToLower (s : String) : String := ⟨s.data.map Char.toLower⟩

/-- `compute_base_card_id`: SHA-256 of the lowercase name, first 12 hex chars. -/
def compute_base_card_id (name : String) : String :=
  (sha256HexOf (strToLower name)).take 12

/-- Ascending sort with Rust's `Vec::<String>::sort` order (lexicographic;
on UTF-8 strings byte order and code-point order agree). -/
def sortAsc (l : List String) : List String := l.mergeSort (fun a b => decide (a ≤ b))

/-- The pre-hash key of `compute_crafted_card_id`: sorted material ids joined
with `"+"`, then `"+[intent]"` if an intent id is present. -/
def craftKey (material_ids : List String) (intent_id : Option String) : String :=
  let key := String.intercalate "+" (sortAsc material_ids)
  match intent_id with
  | some intent => key ++ "+[" ++ intent ++ "]"
  | none => key

/-- `compute_crafted_card_id`: SHA-256 of the key, first 12 hex chars. -/
def compute_crafted_card_id (material_ids : List String) (intent_id : Option String) : String :=
  (sha256HexOf (craftKey material_ids intent_id)).take 12

/-! ## `game_state.rs` -/

/-- `HandCard`: a card in a player's hand (`kind` is the string-typed
`"material"` / `"intent"` / `"crafted"` discriminator of the source). -/
structure HandCard where
  name : String
  description : String
  kind : String
  image_path : String
  id : String
  nft_mint : Option String
deriving Repr, DecidableEq

/-- `CraftedCard` (the payload stored in a board cell). -/
structure CraftedCard where
  name : String
  description : String
  image_path : String
  id : String
deriving Repr, DecidableEq

/-- `PlacedCard`. -/
structure PlacedCard where
  card : CraftedCard
  owner : Nat
deriving Repr, DecidableEq

/-- `BoardCell`. -/
structure BoardCell where
  category : String
  card : Option PlacedCard
deriving Repr, DecidableEq

/-- `PlayerState` (`score : u32` modelled as `Nat`). -/
structure PlayerState where
  hand : List HandCard
  score : Nat
  wallet : Option String
deriving Repr, DecidableEq

inductive GamePhase where
  | playing
  | gameOver
deriving Repr, DecidableEq

inductive GameMode where
  | pvp
  | bot
deriving Repr, DecidableEq

/-- The fixed two-element player array `[PlayerState; 2]`. -/
structure Players where
  p0 : PlayerState
  p1 : PlayerState
deriving Repr, DecidableEq

/-- Indexing into the player array (indices used by the source are always
`0` or `1`; like `usize` indexing we only ever apply it to those). -/
def Players.get (ps : Players) (i : Nat) : PlayerState :=
  if i = 0 then ps.p0 else ps.p1

def Players.set (ps : Players) (i : Nat) (v : PlayerState) : Players :=
  if i = 0 then { ps with p0 := v } else { ps with p1 := v }

/-- `GameState`. -/
structure GameState where
  id : String
  mode : GameMode
  phase : GamePhase
  current_player : Nat
  board : List (List BoardCell)
  players : Players
  winner : Option Nat
  has_placed : Bool
deriving Repr, DecidableEq

def HAND_SIZE : Nat := 7
def WIN_SCORE : Nat := 5

/-- Update one player's state. -/
def GameState.setPlayer (g : GameState) (i : Nat) (p : PlayerState) : GameState :=
  { g with players := g.players.set i p }

theorem Players.get_set_same (ps : Players) (i : Nat) (v : PlayerState) :
    (ps.set i v).get i = v := by
  simp only [Players.set, Players.get]
  split <;> simp_all

theorem Players.get_set_other (ps : Players) (i j : Nat) (v : PlayerState)
    (hi : i < 2) (hj : j < 2) (h : i ≠ j) :
    (ps.set i v).get j = ps.get j := by
  interval_cases i <;> interval_cases j <;> simp_all [Players.set, Players.get]

def dummyCard : HandCard := ⟨"", "", "", "", "", none⟩

def emptyCell : BoardCell := ⟨"", none⟩

/-- Read `board[r][c]` (total; the source always checks `r, c < 3` first). -/
def boardGet (b : List (List BoardCell)) (r c : Nat) : BoardCell :=
  (b.getD r []).getD c emptyCell

/-- `board[r][c].card = Some(placed)`. -/
def boardSetCard (b : List (List BoardCell)) (r c : Nat) (placed : PlacedCard) :
    List (List BoardCell) :=
  b.modify (fun row => row.modify (fun cell => { cell with card := some placed }) c) r

/-- The `while` loop of `GameState::replenish_hand`: push drawn cards until
the hand has `HAND_SIZE` cards.  The random draw (`draw_random_card` over
the base pool) is modelled by the `supply` input: the card drawn when the
hand has `n` cards. -/
def replenishLoop (supply : Nat → HandCard) (hand : List HandCard) : List HandCard :=
  if hand.length < HAND_SIZE then replenishLoop supply (hand ++ [supply hand.length]) else hand
termination_by HAND_SIZE - hand.length
decreasing_by simp; omega

/-- `GameState::replenish_hand`. -/
def GameState.replenish_hand (g : GameState) (player : Nat) (supply : Nat → HandCard) :
    GameState :=
  let p := g.players.get player
  g.setPlayer player { p with hand := replenishLoop supply p.hand }

/-- `GameState::check_winner`: the first player (index order) with
`score >= WIN_SCORE` becomes the winner and the phase becomes game over. -/
def GameState.check_winner (g : GameState) : GameState :=
  if WIN_SCORE ≤ (g.players.get 0).score then
    { g with winner := some 0, phase := .gameOver }
  else if WIN_SCORE ≤ (g.players.get 1).score then
    { g with winner := some 1, phase := .gameOver }
  else g

/-- `GameState::advance_turn`: replenish the departing player's hand, flip
`current_player`, reset `has_placed`. -/
def GameState.advance_turn (g : GameState) (supply : Nat → HandCard) : GameState :=
  let g := g.replenish_hand g.current_player supply
  { g with current_player := 1 - g.current_player, has_placed := false }

/-! ## `game_api.rs`

Each handler is a pure function of the match state, the craft cache, the
request body, and the responses of the external collaborators (Oracle
endpoints, Renderer, file system).  The result records the HTTP-level
outcome, the updated match state and cache, and the list of Oracle
endpoints contacted. -/

/-- The error taxonomy of the handlers (status code plus message). -/
inductive ApiErr where
  | badRequest (msg : String)
  | notFound (msg : String)
  | unprocessable (msg : String)
  | badGateway (msg : String)
  | internal (msg : String)
deriving Repr, DecidableEq

/-- The Oracle (generation server) endpoints a handler may contact. -/
inductive OracleCall where
  | combineEndpoint
  | generateImageEndpoint
  | judgeEndpoint
  | botCombineEndpoint
  | botPlaceEndpoint
deriving Repr, DecidableEq

/-- Outcome of one HTTP call to a collaborator: transport failure
(`send` error), non-success status, body/JSON parse failure, or a parsed
payload. -/
inductive OResp (α : Type) where
  | transportError (msg : String)
  | httpFailure (body : String)
  | parseError (msg : String)
  | ok (v : α)

structure CombineRequest where
  card_indices : List Nat
  async_image : Bool
deriving Repr, DecidableEq

structure FinalizeCombineRequest where
  cache_key : String
  name : String
  description : String
deriving Repr, DecidableEq

structure PlaceRequest where
  hand_index : Nat
  row : Nat
  col : Nat
deriving Repr, DecidableEq

structure DiscardRequest where
  card_indices : List Nat
deriving Repr, DecidableEq

/-- The `/combine` Oracle response body: `combined["name"]`,
`combined["description"]` (absent fields default via `unwrap_or`). -/
structure CombineJson where
  nameField : Option String
  descriptionField : Option String

/-- The `/judge` Oracle response body. -/
structure JudgeJson where
  winnerField : Option String
  reasonField : Option String

/-- The `/bot-place` Oracle response body. -/
structure BotPlaceJson where
  skipField : Option Bool
  handIndexField : Option Nat
  targetRowField : Option Nat
  targetColField : Option Nat

/-- The image half of the crafting pipeline: the `/generate-image` Oracle
response, the Renderer (`card::render_card`, a pure external function),
and the file-system write. -/
structure ImagePipeline where
  imageResp : OResp (List Nat)
  render : String → List Nat → Except String (List Nat)
  writeFile : String → List Nat → Except String Unit

structure CombineEnv where
  combineResp : OResp CombineJson
  image : ImagePipeline

structure FinalizeEnv where
  image : ImagePipeline

structure PlaceEnv where
  judgeResp : OResp JudgeJson

structure BotCombineEnv where
  botResp : OResp (List Nat)
  inner : CombineEnv
  supply : Nat → HandCard

structure BotPlaceEnv where
  botResp : OResp BotPlaceJson
  inner : PlaceEnv
  supply : Nat → HandCard

/-- Result of a handler that may touch the craft cache. -/
structure OpResult (α : Type) where
  res : Except ApiErr α
  game : GameState
  cache : Cache
  calls : List OracleCall

/-- Result of a handler that never touches the craft cache. -/
structure GResult (α : Type) where
  res : Except ApiErr α
  game : GameState
  calls : List OracleCall

/-- The `crafted_card` / `is_new` / `image_pending` / `cache_key` fields of
a successful combine response. -/
structure CombineOut where
  craftedName : String
  craftedDescription : String
  craftedImagePath : Option String
  is_new : Bool
  image_pending : Bool
  cache_key : Option String
deriving Repr, DecidableEq

/-- Substring search on character lists. -/
def listContains (pat : List Char) : List Char → Bool
  | [] => pat.isEmpty
  | c :: rest => pat.isPrefixOf (c :: rest) || listContains pat rest

/-- Rust `str::contains` (substring containment). -/
def strContains (s pat : String) : Bool := listContains pat.data s.data

/-- `sort_unstable_by(|a, b| b.cmp(a))`: descending sort. -/
def sortDescNat (l : List Nat) : List Nat := l.mergeSort (fun a b => decide (b ≤ a))

/-- The removal loop of `finish_combine` and of the async-image path:
remove each index, highest first, skipping out-of-range ones. -/
def removeIndices (hand : List HandCard) (idxs : List Nat) : List HandCard :=
  idxs.foldl (fun h i => if i < h.length then h.eraseIdx i else h) hand

/-- `finish_combine`: consume the selected cards and append the crafted
card built from the cache entry. -/
def finish_combine (g : GameState) (player_idx : Nat) (card_indices : List Nat)
    (cached : CachedCard) : GameState :=
  let p := g.players.get player_idx
  let hand := removeIndices p.hand (sortDescNat card_indices)
  let newCard : HandCard :=
    ⟨cached.name, cached.description, "crafted", cached.image_path, cached.id, none⟩
  g.setPlayer player_idx { p with hand := hand ++ [newCard] }

/-- The `safe_name` sanitisation before building the crafted image filename
(`char::is_alphanumeric` restricted to its ASCII behaviour, as card names
are ASCII). -/
def safeName (name : String) : String :=
  ⟨(name.data.map (fun c => if c.isAlphanum || c == ' ' || c == '-' then c else '_')).map
    (fun c => if c == ' ' then '-' else c)⟩

def diskPathFor (name key : String) : String :=
  "cards/crafted/" ++ safeName name ++ "-" ++ key ++ ".png"

def servePathFor (name key : String) : String :=
  "/cards/crafted/" ++ safeName name ++ "-" ++ key ++ ".png"

/-- The generate-image / render / save-to-disk sequence shared by the
synchronous combine path and `finalize_combine`; returns the serve path. -/
def runImagePipeline (env : ImagePipeline) (name key : String) : Except ApiErr String :=
  match env.imageResp with
  | .transportError e => .error (.badGateway ("Image generation error: " ++ e))
  | .httpFailure _ => .error (.badGateway "Image generation failed")
  | .parseError e => .error (.badGateway ("Image read error: " ++ e))
  | .ok art =>
    match env.render name art with
    | .error e => .error (.internal ("Card render error: " ++ e))
    | .ok png =>
      match env.writeFile (diskPathFor name key) png with
      | .error e => .error (.internal ("File write error: " ++ e))
      | .ok _ => .ok (servePathFor name key)

/-- The cards selected by a combine request (`card_indices.iter().map(|&i| &hand[i])`). -/
def selectedOf (g : GameState) (req : CombineRequest) : List HandCard :=
  req.card_indices.map (fun i => (g.players.get g.current_player).hand.getD i dummyCard)

/-- The cache key a combine request computes: material-like ids (everything
that is not an intent) plus the optional intent id. -/
def combineKeyOf (g : GameState) (req : CombineRequest) : String :=
  compute_crafted_card_id
    (((selectedOf g req).filter (fun c => c.kind != "intent")).map (·.id))
    (((selectedOf g req).find? (fun c => c.kind == "intent")).map (·.id))

/-- The `/api/game/:id/combine` handler. -/
def combine (g : GameState) (cache : Cache) (req : CombineRequest) (env : CombineEnv) :
    OpResult CombineOut :=
  if g.phase = .gameOver then
    ⟨.error (.badRequest "Game is over"), g, cache, []⟩
  else
    let player_idx := g.current_player
    let hand := (g.players.get player_idx).hand
    if req.card_indices.length < 2 ∨ 4 < req.card_indices.length then
      ⟨.error (.badRequest "Select 2-4 cards to combine"), g, cache, []⟩
    else if ¬ req.card_indices.all (fun idx => idx < hand.length) then
      ⟨.error (.badRequest "Invalid card index"), g, cache, []⟩
    else
      let selected := selectedOf g req
      let material_like_count :=
        (selected.filter (fun c => c.kind == "material" || c.kind == "crafted")).length
      let intent_count := (selected.filter (fun c => c.kind == "intent")).length
      if material_like_count < 1 then
        ⟨.error (.badRequest "Need at least 1 material card"), g, cache, []⟩
      else if 1 < intent_count then
        ⟨.error (.badRequest "At most 1 intent allowed"), g, cache, []⟩
      else
        let key := combineKeyOf g req
        match lookupCache cache key with
        | some cached =>
          if cached.impossible then
            ⟨.error (.unprocessable "Combination not possible"), g, cache, []⟩
          else
            let is_new := !cached.discovered
            let cache' :=
              if is_new then insertCache cache key { cached with discovered := true } else cache
            let g' := finish_combine g player_idx req.card_indices cached
            ⟨.ok ⟨cached.name, cached.description, some cached.image_path, is_new, false, none⟩,
              g', cache', []⟩
        | none =>
          match env.combineResp with
          | .transportError e =>
            ⟨.error (.badGateway ("Generation server error: " ++ e)), g, cache, [.combineEndpoint]⟩
          | .httpFailure body =>
            ⟨.error (.badGateway ("Combination failed: " ++ body)), g, cache, [.combineEndpoint]⟩
          | .parseError e =>
            ⟨.error (.badGateway ("Parse error: " ++ e)), g, cache, [.combineEndpoint]⟩
          | .ok js =>
            let card_name := js.nameField.getD "Unknown"
            let card_desc := js.descriptionField.getD ""
            if strContains (strToLower card_name) "not possible" then
              let cache' := insertCache cache key ⟨"Not possible", "", "", key, false, true⟩
              ⟨.error (.unprocessable "Combination not possible"), g, cache', [.combineEndpoint]⟩
            else if req.async_image then
              let p := g.players.get player_idx
              let hand' := removeIndices p.hand (sortDescNat req.card_indices)
              let pending : HandCard := ⟨card_name, card_desc, "crafted", "", key, none⟩
              let g' := g.setPlayer player_idx { p with hand := hand' ++ [pending] }
              ⟨.ok ⟨card_name, card_desc, none, true, true, some key⟩, g', cache,
                [.combineEndpoint]⟩
            else
              match runImagePipeline env.image card_name key with
              | .error e => ⟨.error e, g, cache, [.combineEndpoint, .generateImageEndpoint]⟩
              | .ok serve_path =>
                let cached : CachedCard := ⟨card_name, card_desc, serve_path, key, true, false⟩
                let cache' := insertCache cache key cached
                let g' := finish_combine g player_idx req.card_indices cached
                ⟨.ok ⟨card_name, card_desc, some serve_path, true, false, none⟩, g', cache',
                  [.combineEndpoint, .generateImageEndpoint]⟩

/-- The hand-update loop of `finalize_combine`: fill in the first pending
card that matches the cache key and still has an empty image path. -/
def fillPendingHand (key path : String) : List HandCard → List HandCard
  | [] => []
  | c :: rest =>
    if c.id == key && c.image_path == "" then { c with image_path := path } :: rest
    else c :: fillPendingHand key path rest

/-- The `/api/game/:id/finalize-combine` handler. -/
def finalize_combine (g : GameState) (cache : Cache) (req : FinalizeCombineRequest)
    (env : FinalizeEnv) : OpResult String :=
  match runImagePipeline env.image req.name req.cache_key with
  | .error e => ⟨.error e, g, cache, [.generateImageEndpoint]⟩
  | .ok serve_path =>
    let cached : CachedCard := ⟨req.name, req.description, serve_path, req.cache_key, true, false⟩
    let cache' := insertCache cache req.cache_key cached
    let player_idx := g.current_player
    let p := g.players.get player_idx
    let g' := g.setPlayer player_idx { p with hand := fillPendingHand req.cache_key serve_path p.hand }
    ⟨.ok serve_path, g', cache', [.generateImageEndpoint]⟩

/-- A contest's judgment report. -/
structure Judgment where
  winner : String
  reason : String
  defender : String
  attacker : String
  category : String
deriving Repr, DecidableEq

structure PlaceOut where
  result : String
  judgment : Option Judgment
deriving Repr, DecidableEq

/-- The commit block of `place`: decrement a displaced opponent's score
(`u32::saturating_sub`, i.e. `Nat` subtraction), overwrite the cell,
consume the hand card, increment the actor's score, set `has_placed`, and
evaluate the win condition. -/
def placeCommit (g : GameState) (player_idx row col hand_index : Nat)
    (crafted : CraftedCard) : GameState :=
  let g :=
    match (boardGet g.board row col).card with
    | some placed =>
      if placed.owner ≠ player_idx then
        let prev := g.players.get placed.owner
        g.setPlayer placed.owner { prev with score := prev.score - 1 }
      else g
    | none => g
  let g := { g with board := boardSetCard g.board row col ⟨crafted, player_idx⟩ }
  let p := g.players.get player_idx
  let g := g.setPlayer player_idx { p with hand := p.hand.eraseIdx hand_index, score := p.score + 1 }
  GameState.check_winner { g with has_placed := true }

/-- The `/api/game/:id/place` handler. -/
def place (g : GameState) (req : PlaceRequest) (env : PlaceEnv) : GResult PlaceOut :=
  if g.phase = .gameOver then ⟨.error (.badRequest "Game is over"), g, []⟩
  else if g.has_placed then ⟨.error (.badRequest "Already placed a card this turn"), g, []⟩
  else
    let player_idx := g.current_player
    if 3 ≤ req.row ∨ 3 ≤ req.col then ⟨.error (.badRequest "Invalid board position"), g, []⟩
    else if (g.players.get player_idx).hand.length ≤ req.hand_index then
      ⟨.error (.badRequest "Invalid card index"), g, []⟩
    else
      let hand_card := (g.players.get player_idx).hand.getD req.hand_index dummyCard
      if hand_card.kind ≠ "crafted" then
        ⟨.error (.badRequest "Only crafted cards can be placed"), g, []⟩
      else
        let crafted : CraftedCard :=
          ⟨hand_card.name, hand_card.description, hand_card.image_path, hand_card.id⟩
        let cell := boardGet g.board req.row req.col
        match cell.card with
        | some placed =>
          if placed.owner = player_idx then
            ⟨.error (.badRequest "You already own this cell"), g, []⟩
          else
            match env.judgeResp with
            | .transportError e => ⟨.error (.badGateway ("Judge error: " ++ e)), g, [.judgeEndpoint]⟩
            | .httpFailure _ => ⟨.error (.badGateway "Judge call failed"), g, [.judgeEndpoint]⟩
            | .parseError e =>
              ⟨.error (.badGateway ("Judge parse error: " ++ e)), g, [.judgeEndpoint]⟩
            | .ok js =>
              let winner := js.winnerField.getD "a"
              let reason := js.reasonField.getD ""
              let judgment : Judgment :=
                ⟨winner, reason, placed.card.name, crafted.name, cell.category⟩
              if winner = "a" then
                ⟨.ok ⟨"defended", some judgment⟩, g, [.judgeEndpoint]⟩
              else
                ⟨.ok ⟨"conquered", some judgment⟩,
                  placeCommit g player_idx req.row req.col req.hand_index crafted,
                  [.judgeEndpoint]⟩
        | none =>
          ⟨.ok ⟨"placed", none⟩,
            placeCommit g player_idx req.row req.col req.hand_index crafted, []⟩

/-- `Vec::dedup` on the already-sorted index list: drop adjacent duplicates. -/
def dedupAdjacent : List Nat → List Nat
  | [] => []
  | [a] => [a]
  | a :: b :: rest =>
    if a = b then dedupAdjacent (b :: rest) else a :: dedupAdjacent (b :: rest)

/-- The `/api/game/:id/discard` handler.  (The removal loop has no bounds
check in the source; the validated, deduplicated descending indices are
always in range, so total `eraseIdx` is faithful.) -/
def discard (g : GameState) (req : DiscardRequest) : GResult Unit :=
  if g.phase = .gameOver then ⟨.error (.badRequest "Game is over"), g, []⟩
  else if req.card_indices.isEmpty ∨ 3 < req.card_indices.length then
    ⟨.error (.badRequest "Discard 1-3 cards"), g, []⟩
  else
    let player_idx := g.current_player
    let hand_len := (g.players.get player_idx).hand.length
    if ¬ req.card_indices.all (fun idx => idx < hand_len) then
      ⟨.error (.badRequest "Invalid card index"), g, []⟩
    else
      let sorted := dedupAdjacent (sortDescNat req.card_indices)
      let p := g.players.get player_idx
      ⟨.ok (), g.setPlayer player_idx { p with hand := sorted.foldl List.eraseIdx p.hand }, []⟩

/-- The `/api/game/:id/end-turn` handler. -/
def end_turn (g : GameState) (supply : Nat → HandCard) : GResult Unit :=
  if g.phase = .gameOver then ⟨.error (.badRequest "Game is over"), g, []⟩
  else ⟨.ok (), g.advance_turn supply, []⟩

inductive BotCombineOut where
  | combined (out : CombineOut)
  | botFailed
deriving Repr, DecidableEq

/-- The `/api/game/:id/bot-combine` handler. -/
def bot_combine (g : GameState) (cache : Cache) (env : BotCombineEnv) :
    OpResult BotCombineOut :=
  if g.mode ≠ .bot then ⟨.error (.badRequest "Not a bot game"), g, cache, []⟩
  else if g.current_player ≠ 1 then ⟨.error (.badRequest "Not bot's turn"), g, cache, []⟩
  else if g.phase = .gameOver then ⟨.error (.badRequest "Game is over"), g, cache, []⟩
  else
    match env.botResp with
    | .transportError e =>
      ⟨.error (.badGateway ("Bot combine error: " ++ e)), g, cache, [.botCombineEndpoint]⟩
    | .httpFailure _ => ⟨.ok .botFailed, g.advance_turn env.supply, cache, [.botCombineEndpoint]⟩
    | .parseError e => ⟨.error (.badGateway ("Parse error: " ++ e)), g, cache, [.botCombineEndpoint]⟩
    | .ok combine_indices =>
      let r := combine g cache ⟨combine_indices, false⟩ env.inner
      match r.res with
      | .ok out => ⟨.ok (.combined out), r.game, r.cache, .botCombineEndpoint :: r.calls⟩
      | .error _ =>
        ⟨.ok .botFailed, r.game.advance_turn env.supply, r.cache, .botCombineEndpoint :: r.calls⟩

inductive BotPlaceOut where
  | placedOut (out : PlaceOut)
  | botFailed
  | botSkipped
deriving Repr, DecidableEq

/-- The `/api/game/:id/bot-place` handler. -/
def bot_place (g : GameState) (env : BotPlaceEnv) : GResult BotPlaceOut :=
  if g.mode ≠ .bot then ⟨.error (.badRequest "Not a bot game"), g, []⟩
  else if g.current_player ≠ 1 then ⟨.error (.badRequest "Not bot's turn"), g, []⟩
  else if g.phase = .gameOver then ⟨.error (.badRequest "Game is over"), g, []⟩
  else if ¬ (g.players.get 1).hand.any (fun c => c.kind == "crafted") then
    ⟨.ok .botSkipped, g.advance_turn env.supply, []⟩
  else
    match env.botResp with
    | .transportError e => ⟨.error (.badGateway ("Bot place error: " ++ e)), g, [.botPlaceEndpoint]⟩
    | .httpFailure _ => ⟨.ok .botFailed, g.advance_turn env.supply, [.botPlaceEndpoint]⟩
    | .parseError e => ⟨.error (.badGateway ("Parse error: " ++ e)), g, [.botPlaceEndpoint]⟩
    | .ok js =>
      if js.skipField.getD false then
        ⟨.ok .botSkipped, g.advance_turn env.supply, [.botPlaceEndpoint]⟩
      else
        let r := place g
          ⟨js.handIndexField.getD 0, min (js.targetRowField.getD 0) 2,
            min (js.targetColField.getD 0) 2⟩ env.inner
        match r.res with
        | .ok out =>
          let g' := if r.game.phase ≠ .gameOver then r.game.advance_turn env.supply else r.game
          ⟨.ok (.placedOut out), g', .botPlaceEndpoint :: r.calls⟩
        | .error _ =>
          ⟨.ok .botSkipped, r.game.advance_turn env.supply, .botPlaceEndpoint :: r.calls⟩

/-! ## Helper lemmas -/

theorem sha256Round_length (st : List Nat) (wk : Nat × Nat) :
    (sha256Round st wk).length = st.length := by
  unfold sha256Round
  split <;> simp_all

theorem foldl_sha256Round_length (l : List (Nat × Nat)) (st : List Nat) :
    (l.foldl sha256Round st).length = st.length := by
  induction l generalizing st with
  | nil => rfl
  | cons x xs ih => simp [List.foldl_cons, ih, sha256Round_length]

theorem processBlock_length (hs block : List Nat) :
    (processBlock hs block).length = hs.length := by
  unfold processBlock
  simp [foldl_sha256Round_length]

theorem foldl_processBlock_length (bs : List (List Nat)) (hs : List Nat) :
    (bs.foldl processBlock hs).length = hs.length := by
  induction bs generalizing hs with
  | nil => rfl
  | cons b bs ih => simp [List.foldl_cons, ih, processBlock_length]

theorem bytesBE_length (k n : Nat) : (bytesBE k n).length = k := by
  simp [bytesBE]

theorem sha256Bytes_length (msg : List Nat) : (sha256Bytes msg).length = 32 := by
  unfold sha256Bytes
  rw [List.length_flatten]
  simp only [List.map_map, Function.comp_def, bytesBE_length]
  rw [List.map_const', List.sum_replicate, foldl_processBlock_length]
  rfl

theorem bytesHex_length (bs : List Nat) : (bytesHex bs).length = 2 * bs.length := by
  show ((bs.map byteHex).flatten).length = 2 * bs.length
  rw [List.length_flatten]
  simp only [List.map_map, Function.comp_def, byteHex, List.length_cons, List.length_nil]
  rw [List.map_const', List.sum_replicate]
  simp [Nat.mul_comm]

theorem sha256HexOf_length (s : String) : (sha256HexOf s).length = 64 := by
  unfold sha256HexOf
  rw [bytesHex_length, sha256Bytes_length]

/-- Sorting with `mergeSort` is invariant under permutation of the input
(for the linear order on `String`). -/
theorem sortAsc_perm_congr {l₁ l₂ : List String} (h : l₁.Perm l₂) :
    sortAsc l₁ = sortAsc l₂ :=
  List.eq_of_perm_of_sorted
    ((List.mergeSort_perm l₁ _).trans (h.trans (List.mergeSort_perm l₂ _).symm))
    (List.sorted_mergeSort' l₁) (List.sorted_mergeSort' l₂)

theorem craftKey_perm_congr {l₁ l₂ : List String} (intent : Option String) (h : l₁.Perm l₂) :
    craftKey l₁ intent = craftKey l₂ intent := by
  unfold craftKey
  rw [sortAsc_perm_congr h]

theorem compute_crafted_card_id_length (ids : List String) (intent : Option String) :
    (compute_crafted_card_id ids intent).length = 12 := by
  unfold compute_crafted_card_id
  rw [String.take_eq]
  show ((sha256HexOf (craftKey ids intent)).data.take 12).length = 12
  rw [List.length_take]
  have h : (sha256HexOf (craftKey ids intent)).data.length = 64 :=
    sha256HexOf_length (craftKey ids intent)
  omega

theorem combine_of_gameover (g : GameState) (cache : Cache) (req : CombineRequest)
    (env : CombineEnv) (h : g.phase = .gameOver) :
    combine g cache req env = ⟨.error (.badRequest "Game is over"), g, cache, []⟩ := by
  unfold combine
  simp [h]

theorem place_of_gameover (g : GameState) (req : PlaceRequest) (env : PlaceEnv)
    (h : g.phase = .gameOver) :
    place g req env = ⟨.error (.badRequest "Game is over"), g, []⟩ := by
  unfold place
  simp [h]

theorem discard_of_gameover (g : GameState) (req : DiscardRequest) (h : g.phase = .gameOver) :
    discard g req = ⟨.error (.badRequest "Game is over"), g, []⟩ := by
  unfold discard
  simp [h]

theorem end_turn_of_gameover (g : GameState) (supply : Nat → HandCard)
    (h : g.phase = .gameOver) :
    end_turn g supply = ⟨.error (.badRequest "Game is over"), g, []⟩ := by
  unfold end_turn
  simp [h]

theorem bot_combine_of_gameover (g : GameState) (cache : Cache) (env : BotCombineEnv)
    (h : g.phase = .gameOver) :
    (bot_combine g cache env).game = g ∧ (bot_combine g cache env).cache = cache ∧
      (bot_combine g cache env).calls = [] ∧
      ∃ m, (bot_combine g cache env).res = .error (.badRequest m) := by
  unfold bot_combine
  split_ifs <;> simp_all

theorem bot_place_of_gameover (g : GameState) (env : BotPlaceEnv) (h : g.phase = .gameOver) :
    (bot_place g env).game = g ∧ (bot_place g env).calls = [] ∧
      ∃ m, (bot_place g env).res = .error (.badRequest m) := by
  unfold bot_place
  split_ifs <;> simp_all

theorem check_winner_players (g : GameState) : g.check_winner.players = g.players := by
  unfold GameState.check_winner
  split_ifs <;> rfl

theorem check_winner_board (g : GameState) : g.check_winner.board = g.board := by
  unfold GameState.check_winner
  split_ifs <;> rfl

theorem check_winner_current (g : GameState) :
    g.check_winner.current_player = g.current_player := by
  unfold GameState.check_winner
  split_ifs <;> rfl

theorem check_winner_has_placed (g : GameState) :
    g.check_winner.has_placed = g.has_placed := by
  unfold GameState.check_winner
  split_ifs <;> rfl

/-- If the phase is still `playing` after `check_winner`, no one has
reached the winning score yet. -/
theorem check_winner_playing_scores (g : GameState) (h : g.check_winner.phase = .playing) :
    g.players.p0.score < WIN_SCORE ∧ g.players.p1.score < WIN_SCORE := by
  unfold GameState.check_winner at h
  split_ifs at h
  simp_all [Players.get]

theorem check_winner_phase_of_not_ge (g : GameState)
    (h0 : g.players.p0.score < WIN_SCORE) (h1 : g.players.p1.score < WIN_SCORE) :
    g.check_winner = g := by
  have n0 : ¬ WIN_SCORE ≤ (g.players.get 0).score := by simp [Players.get]; omega
  have n1 : ¬ WIN_SCORE ≤ (g.players.get 1).score := by simp [Players.get]; omega
  unfold GameState.check_winner
  simp [n0, n1]

theorem boardGet_boardSetCard_same (b : List (List BoardCell)) (r c : Nat)
    (placed : PlacedCard) (hr : r < b.length) (hc : c < (b.getD r []).length) :
    boardGet (boardSetCard b r c placed) r c =
      { boardGet b r c with card := some placed } := by
  unfold boardGet boardSetCard
  obtain ⟨row, hrow⟩ : ∃ row, b[r]? = some row := by
    simp [List.getElem?_eq_getElem hr]
  obtain ⟨cell, hcell⟩ : ∃ cell, row[c]? = some cell := by
    rw [List.getD_eq_getElem?_getD, hrow, Option.getD_some] at hc
    simp [List.getElem?_eq_getElem hc]
  simp [List.getD_eq_getElem?_getD, List.getElem?_modify, hrow, hcell]

theorem replenishLoop_length (s : Nat → HandCard) (hand : List HandCard) :
    (replenishLoop s hand).length = max hand.length HAND_SIZE := by
  induction hand using replenishLoop.induct s with
  | case1 hand h ih =>
    rw [replenishLoop]
    simp [h] at ih ⊢
    omega
  | case2 hand h =>
    rw [replenishLoop]
    simp [h]
    omega

theorem removeIndices_length_le (idxs : List Nat) (hand : List HandCard) :
    (removeIndices hand idxs).length ≤ hand.length := by
  induction idxs generalizing hand with
  | nil => exact le_refl _
  | cons i rest ih =>
    show (removeIndices _ rest).length ≤ _
    refine le_trans (ih _) ?_
    simp only []
    split
    · rw [List.length_eraseIdx]
      split <;> omega
    · exact le_refl _

theorem removeIndices_cons (hand : List HandCard) (i : Nat) (idxs : List Nat) :
    removeIndices hand (i :: idxs) =
      removeIndices (if i < hand.length then hand.eraseIdx i else hand) idxs := by
  unfold removeIndices
  simp [List.foldl_cons]

theorem removeIndices_length_lt (i : Nat) (idxs : List Nat) (hand : List HandCard)
    (hi : i < hand.length) :
    (removeIndices hand (i :: idxs)).length < hand.length := by
  rw [removeIndices_cons, if_pos hi]
  refine lt_of_le_of_lt (removeIndices_length_le idxs _) ?_
  rw [List.length_eraseIdx]
  split <;> omega

theorem foldl_eraseIdx_length_le (idxs : List Nat) (hand : List HandCard) :
    (idxs.foldl List.eraseIdx hand).length ≤ hand.length := by
  induction idxs generalizing hand with
  | nil => exact le_refl _
  | cons i rest ih =>
    simp only [List.foldl_cons]
    refine le_trans (ih _) ?_
    rw [List.length_eraseIdx]
    split <;> omega

theorem sortDescNat_perm (l : List Nat) : (sortDescNat l).Perm l :=
  List.mergeSort_perm l _

theorem mem_sortDescNat {l : List Nat} {i : Nat} : i ∈ sortDescNat l ↔ i ∈ l :=
  (sortDescNat_perm l).mem_iff

theorem sortDescNat_length (l : List Nat) : (sortDescNat l).length = l.length :=
  (sortDescNat_perm l).length_eq

/-- Every field of a hand card except its `image_path`. -/
def HandCard.core (c : HandCard) : String × String × String × String × Option String :=
  (c.name, c.description, c.kind, c.id, c.nft_mint)

theorem fillPendingHand_core (key path : String) (l : List HandCard) :
    (fillPendingHand key path l).map HandCard.core = l.map HandCard.core := by
  induction l with
  | nil => rfl
  | cons c rest ih =>
    unfold fillPendingHand
    split <;> simp_all [HandCard.core]

theorem fillPendingHand_length (key path : String) (l : List HandCard) :
    (fillPendingHand key path l).length = l.length := by
  have h := congrArg List.length (fillPendingHand_core key path l)
  simpa using h

/-! ## Reachability and the match invariant -/

/-- The per-match invariant maintained by every handler: scores within
`[0, WIN_SCORE]` (strictly below it while still playing), hands of at most
`HAND_SIZE` cards, and a valid current-player index. -/
def GameInv (g : GameState) : Prop :=
  g.players.p0.score ≤ WIN_SCORE ∧ g.players.p1.score ≤ WIN_SCORE ∧
  (g.phase = .playing → g.players.p0.score < WIN_SCORE ∧ g.players.p1.score < WIN_SCORE) ∧
  g.players.p0.hand.length ≤ HAND_SIZE ∧ g.players.p1.hand.length ≤ HAND_SIZE ∧
  g.current_player < 2

/-- The states `GameState::new` (composed with the NFT hand replacement of
`new_game`, which preserves the hand size) can produce: a fresh playing
match, player 0 to move, zero scores, two `HAND_SIZE`-card hands, and a
3×3 board of empty cells. -/
def Initial (g : GameState) : Prop :=
  g.phase = .playing ∧ g.current_player = 0 ∧ g.winner = none ∧ g.has_placed = false ∧
  g.players.p0.score = 0 ∧ g.players.p1.score = 0 ∧
  g.players.p0.hand.length = HAND_SIZE ∧ g.players.p1.hand.length = HAND_SIZE ∧
  g.board.length = 3 ∧ ∀ row ∈ g.board, row.length = 3 ∧ ∀ cell ∈ row, cell.card = none

/-- One request-surface operation on the match, with arbitrary request
body, collaborator responses, and cache. -/
inductive Step : GameState → GameState → Prop where
  | combineStep (g : GameState) (cache : Cache) (req : CombineRequest) (env : CombineEnv) :
      Step g (combine g cache req env).game
  | finalizeStep (g : GameState) (cache : Cache) (req : FinalizeCombineRequest)
      (env : FinalizeEnv) : Step g (finalize_combine g cache req env).game
  | placeStep (g : GameState) (req : PlaceRequest) (env : PlaceEnv) :
      Step g (place g req env).game
  | discardStep (g : GameState) (req : DiscardRequest) : Step g (discard g req).game
  | endTurnStep (g : GameState) (supply : Nat → HandCard) : Step g (end_turn g supply).game
  | botCombineStep (g : GameState) (cache : Cache) (env : BotCombineEnv) :
      Step g (bot_combine g cache env).game
  | botPlaceStep (g : GameState) (env : BotPlaceEnv) : Step g (bot_place g env).game

/-- Match states reachable from a fresh match through the request surface. -/
inductive Reachable : GameState → Prop where
  | init (g : GameState) : Initial g → Reachable g
  | step (g g' : GameState) : Reachable g → Step g g' → Reachable g'

theorem advance_turn_inv (g : GameState) (supply : Nat → HandCard) (h : GameInv g) :
    GameInv (g.advance_turn supply) := by
  obtain ⟨gid, gmode, gphase, gcur, gboard, ⟨gp0, gp1⟩, gwin, ghp⟩ := g
  obtain ⟨h1, h2, h3, h4, h5, h6⟩ := h
  simp only [GameInv] at *
  unfold GameState.advance_turn GameState.replenish_hand GameState.setPlayer Players.set
    Players.get
  by_cases hcp : gcur = 0 <;>
    (simp_all [replenishLoop_length]; try omega)

theorem GameInv_check_winner (g : GameState)
    (h1 : g.players.p0.score ≤ WIN_SCORE) (h2 : g.players.p1.score ≤ WIN_SCORE)
    (h4 : g.players.p0.hand.length ≤ HAND_SIZE) (h5 : g.players.p1.hand.length ≤ HAND_SIZE)
    (h6 : g.current_player < 2) :
    GameInv g.check_winner := by
  refine ⟨?_, ?_, ?_, ?_, ?_, ?_⟩
  · rw [check_winner_players]; exact h1
  · rw [check_winner_players]; exact h2
  · intro hp
    rw [check_winner_players]
    exact check_winner_playing_scores g hp
  · rw [check_winner_players]; exact h4
  · rw [check_winner_players]; exact h5
  · rw [check_winner_current]; exact h6

theorem GameInv_hand_update (g : GameState) (h : GameInv g) (card : HandCard)
    (idxs : List Nat) (hlen : 2 ≤ idxs.length)
    (hall : idxs.all (fun i => i < (g.players.get g.current_player).hand.length) = true) :
    GameInv (g.setPlayer g.current_player
      { g.players.get g.current_player with
        hand := removeIndices (g.players.get g.current_player).hand
          (sortDescNat idxs) ++ [card] }) := by
  obtain ⟨h1, h2, h3, h4, h5, h6⟩ := h
  obtain ⟨j, rest, hsort⟩ : ∃ j rest, sortDescNat idxs = j :: rest := by
    cases hs : sortDescNat idxs with
    | nil =>
      exfalso
      have := sortDescNat_length idxs
      rw [hs] at this
      simp at this
      omega
    | cons j rest => exact ⟨j, rest, rfl⟩
  have hj : j < (g.players.get g.current_player).hand.length := by
    have hmem : j ∈ idxs := mem_sortDescNat.mp (hsort ▸ List.mem_cons_self j rest)
    have := List.all_eq_true.mp hall j hmem
    simpa using this
  have hlt : (removeIndices (g.players.get g.current_player).hand (sortDescNat idxs)).length <
      (g.players.get g.current_player).hand.length := by
    rw [hsort]
    exact removeIndices_length_lt j rest _ hj
  simp only [GameInv, GameState.setPlayer, Players.set, Players.get] at *
  by_cases hcp : g.current_player = 0 <;> simp_all <;> omega

theorem finish_combine_inv (g : GameState) (cached : CachedCard) (idxs : List Nat)
    (h : GameInv g) (hlen : 2 ≤ idxs.length)
    (hall : idxs.all (fun i => i < (g.players.get g.current_player).hand.length) = true) :
    GameInv (finish_combine g g.current_player idxs cached) :=
  GameInv_hand_update g h _ idxs hlen hall

theorem combine_game_cases (g : GameState) (cache : Cache) (req : CombineRequest)
    (env : CombineEnv) :
    (combine g cache req env).game = g ∨
    (2 ≤ req.card_indices.length ∧
      req.card_indices.all
        (fun idx => idx < (g.players.get g.current_player).hand.length) = true ∧
      ∃ card, (combine g cache req env).game =
        g.setPlayer g.current_player
          { g.players.get g.current_player with
            hand := removeIndices (g.players.get g.current_player).hand
              (sortDescNat req.card_indices) ++ [card] }) := by
  by_cases h1 : g.phase = .gameOver
  · left
    simp [combine, h1]
  by_cases h2 : req.card_indices.length < 2 ∨ 4 < req.card_indices.length
  · left
    simp [combine, h1, h2]
  by_cases h3 : (req.card_indices.all
    fun idx => decide (idx < (g.players.get g.current_player).hand.length)) = true
  case neg =>
    left
    simp [combine, h1, h2, h3]
  by_cases h4 : (List.filter (fun c => c.kind == "material" || c.kind == "crafted")
    (selectedOf g req)).length < 1
  · left
    simp [combine, h1, h2, h3, h4]
  by_cases h5 : 1 < (List.filter (fun c => c.kind == "intent") (selectedOf g req)).length
  · left
    simp [combine, h1, h2, h3, h4, h5]
  simp only [combine, if_neg h1, if_neg h2, h3, not_true_eq_false, Bool.false_eq_true,
    if_false, if_neg h4, if_neg h5]
  split
  · split_ifs with himp hdisc
    · left; rfl
    · right
      exact ⟨by omega, trivial, _, rfl⟩
    · right
      exact ⟨by omega, trivial, _, rfl⟩
  · split
    · left; rfl
    · left; rfl
    · left; rfl
    · split_ifs with hnp hasync
      · left; rfl
      · right
        exact ⟨by omega, trivial, _, rfl⟩
      · split
        · left; rfl
        · right
          exact ⟨by omega, trivial, _, rfl⟩

theorem combine_inv (g : GameState) (cache : Cache) (req : CombineRequest)
    (env : CombineEnv) (h : GameInv g) : GameInv (combine g cache req env).game := by
  rcases combine_game_cases g cache req env with heq | ⟨hlen, hall, card, heq⟩
  · rw [heq]; exact h
  · rw [heq]; exact GameInv_hand_update g h card req.card_indices hlen hall

theorem finalize_combine_inv (g : GameState) (cache : Cache)
    (req : FinalizeCombineRequest) (env : FinalizeEnv) (h : GameInv g) :
    GameInv (finalize_combine g cache req env).game := by
  obtain ⟨h1, h2, h3, h4, h5, h6⟩ := h
  unfold finalize_combine
  split
  · exact ⟨h1, h2, h3, h4, h5, h6⟩
  · simp only [GameInv, GameState.setPlayer, Players.set, Players.get] at *
    by_cases hcp : g.current_player = 0 <;> simp_all [fillPendingHand_length]

theorem placeCommit_inv (g : GameState) (player row col idx : Nat) (card : CraftedCard)
    (h : GameInv g) (hphase : g.phase = .playing) :
    GameInv (placeCommit g player row col idx card) := by
  obtain ⟨h1, h2, h3, h4, h5, h6⟩ := h
  obtain ⟨l0, l1⟩ := h3 hphase
  unfold placeCommit
  cases hcell : (boardGet g.board row col).card with
  | none =>
    simp only [hcell]
    apply GameInv_check_winner <;>
      by_cases hp : player = 0 <;>
        simp_all [GameState.setPlayer, Players.set, Players.get, List.length_eraseIdx]
    all_goals try omega
    all_goals (split <;> omega)
  | some placed =>
    simp only [hcell]
    split_ifs with hown
    · apply GameInv_check_winner <;>
        by_cases hp : player = 0 <;> by_cases ho : placed.owner = 0 <;>
          simp_all [GameState.setPlayer, Players.set, Players.get, List.length_eraseIdx]
      all_goals try omega
      all_goals (split <;> omega)
    · apply GameInv_check_winner <;>
        by_cases hp : player = 0 <;>
          simp_all [GameState.setPlayer, Players.set, Players.get, List.length_eraseIdx]
      all_goals try omega
      all_goals (split <;> omega)

theorem place_game_cases (g : GameState) (req : PlaceRequest) (env : PlaceEnv) :
    (place g req env).game = g ∨
    (g.phase = .playing ∧ ∃ crafted, (place g req env).game =
      placeCommit g g.current_player req.row req.col req.hand_index crafted) := by
  by_cases h1 : g.phase = .gameOver
  · left
    simp [place, h1]
  have hplay : g.phase = .playing := by
    cases hph : g.phase
    · rfl
    · exact absurd hph h1
  by_cases h2 : g.has_placed = true
  · left
    simp [place, h1, h2]
  by_cases h3 : 3 ≤ req.row ∨ 3 ≤ req.col
  · left
    simp [place, h1, h2, h3]
  by_cases h4 : (g.players.get g.current_player).hand.length ≤ req.hand_index
  · left
    simp [place, h1, h2, h3, h4]
  by_cases h5 :
    ((g.players.get g.current_player).hand[req.hand_index]?.getD dummyCard).kind = "crafted"
  case neg =>
    left
    simp [place, h1, h2, h3, h4, h5]
  have h5n : ¬ (((g.players.get g.current_player).hand.getD req.hand_index dummyCard).kind ≠
      "crafted") := by
    simp only [ne_eq, Decidable.not_not, List.getD_eq_getElem?_getD]
    exact h5
  simp only [place, if_neg h1, if_neg h2, if_neg h3, if_neg h4, if_neg h5n]
  split
  · split_ifs with hown
    · left; rfl
    · split
      · left; rfl
      · left; rfl
      · left; rfl
      · split_ifs with hwin
        · left; rfl
        · right
          exact ⟨hplay, _, rfl⟩
  · right
    exact ⟨hplay, _, rfl⟩

theorem place_inv (g : GameState) (req : PlaceRequest) (env : PlaceEnv) (h : GameInv g) :
    GameInv (place g req env).game := by
  rcases place_game_cases g req env with heq | ⟨hplay, crafted, heq⟩
  · rw [heq]
    exact h
  · rw [heq]
    exact placeCommit_inv g _ req.row req.col req.hand_index crafted h hplay

theorem discard_inv (g : GameState) (req : DiscardRequest) (h : GameInv g) :
    GameInv (discard g req).game := by
  obtain ⟨h1, h2, h3, h4, h5, h6⟩ := h
  by_cases ha : g.phase = .gameOver
  · simp only [discard, if_pos ha]
    exact ⟨h1, h2, h3, h4, h5, h6⟩
  by_cases hb : req.card_indices.isEmpty = true ∨ 3 < req.card_indices.length
  · simp only [discard, if_neg ha, if_pos hb]
    exact ⟨h1, h2, h3, h4, h5, h6⟩
  by_cases hc : (req.card_indices.all
    fun idx => decide (idx < (g.players.get g.current_player).hand.length)) = true
  case neg =>
    simp only [discard, if_neg ha, if_neg hb, hc, not_false_eq_true, if_pos]
    exact ⟨h1, h2, h3, h4, h5, h6⟩
  simp only [discard, if_neg ha, if_neg hb, hc, not_true_eq_false, Bool.false_eq_true,
    if_false]
  have hle := foldl_eraseIdx_length_le (dedupAdjacent (sortDescNat req.card_indices))
    (g.players.get g.current_player).hand
  simp only [GameInv, GameState.setPlayer, Players.set, Players.get] at *
  by_cases hcp : g.current_player = 0 <;> (simp_all; try omega)

theorem end_turn_inv (g : GameState) (supply : Nat → HandCard) (h : GameInv g) :
    GameInv (end_turn g supply).game := by
  unfold end_turn
  split_ifs with h1
  · exact h
  · exact advance_turn_inv g supply h

theorem bot_combine_inv (g : GameState) (cache : Cache) (env : BotCombineEnv)
    (h : GameInv g) : GameInv (bot_combine g cache env).game := by
  by_cases h1 : g.mode ≠ .bot
  · simp only [bot_combine, if_pos h1]
    exact h
  by_cases h2 : g.current_player ≠ 1
  · simp only [bot_combine, if_neg h1, if_pos h2]
    exact h
  by_cases h3 : g.phase = .gameOver
  · simp only [bot_combine, if_neg h1, if_neg h2, if_pos h3]
    exact h
  simp only [bot_combine, if_neg h1, if_neg h2, if_neg h3]
  cases hresp : env.botResp with
  | transportError e => exact h
  | httpFailure b => exact advance_turn_inv g env.supply h
  | parseError e => exact h
  | ok idxs =>
    simp only []
    split
    · exact combine_inv g cache _ env.inner h
    · exact advance_turn_inv _ env.supply (combine_inv g cache _ env.inner h)

theorem bot_place_inv (g : GameState) (env : BotPlaceEnv) (h : GameInv g) :
    GameInv (bot_place g env).game := by
  by_cases h1 : g.mode ≠ .bot
  · simp only [bot_place, if_pos h1]
    exact h
  by_cases h2 : g.current_player ≠ 1
  · simp only [bot_place, if_neg h1, if_pos h2]
    exact h
  by_cases h3 : g.phase = .gameOver
  · simp only [bot_place, if_neg h1, if_neg h2, if_pos h3]
    exact h
  by_cases h4 : ¬ ((g.players.get 1).hand.any fun c => c.kind == "crafted") = true
  · simp only [bot_place, if_neg h1, if_neg h2, if_neg h3, if_pos h4]
    exact advance_turn_inv g env.supply h
  simp only [bot_place, if_neg h1, if_neg h2, if_neg h3, if_neg h4]
  cases hresp : env.botResp with
  | transportError e => exact h
  | httpFailure b => exact advance_turn_inv g env.supply h
  | parseError e => exact h
  | ok js =>
    by_cases hskip : js.skipField.getD false = true
    · simp only [hskip, if_true]
      exact advance_turn_inv g env.supply h
    · simp only [hskip, Bool.false_eq_true, if_false]
      split
      · by_cases hph : (place g ⟨js.handIndexField.getD 0, min (js.targetRowField.getD 0) 2,
          min (js.targetColField.getD 0) 2⟩ env.inner).game.phase ≠ .gameOver
        · simp only [if_pos hph]
          exact advance_turn_inv _ env.supply (place_inv g _ env.inner h)
        · simp only [if_neg hph]
          exact place_inv g _ env.inner h
      · exact advance_turn_inv _ env.supply (place_inv g _ env.inner h)

/-- Every reachable match state satisfies the invariant. -/
theorem reachable_inv (g : GameState) (h : Reachable g) : GameInv g := by
  induction h with
  | init g hI =>
    obtain ⟨i1, i2, _, _, i5, i6, i7, i8, _⟩ := hI
    exact ⟨by simp [i5], by simp [i6],
      fun _ => ⟨by simp [i5, WIN_SCORE], by simp [i6, WIN_SCORE]⟩,
      by omega, by omega, by omega⟩
  | step g gp hr hs ih =>
    cases hs with
    | combineStep cache req env => exact combine_inv g cache req env ih
    | finalizeStep cache req env => exact finalize_combine_inv g cache req env ih
    | placeStep req env => exact place_inv g req env ih
    | discardStep req => exact discard_inv g req ih
    | endTurnStep supply => exact end_turn_inv g supply ih
    | botCombineStep cache env => exact bot_combine_inv g cache env ih
    | botPlaceStep env => exact bot_place_inv g env ih

/-! ## The claims -/

/-- **C1**: the crafted-card id is invariant under permutation of the
material ids: any two selections of the same material multiset plus the
same optional intent yield the same 12-hex-character id. -/
theorem crafted_id_permutation_invariant (ids₁ ids₂ : List String) (intent : Option String)
    (h : ids₁.Perm ids₂) :
    compute_crafted_card_id ids₁ intent = compute_crafted_card_id ids₂ intent ∧
      (compute_crafted_card_id ids₁ intent).length = 12 := by
  constructor
  · unfold compute_crafted_card_id
    rw [craftKey_perm_congr intent h]
  · exact compute_crafted_card_id_length ids₁ intent

/-- **C2**: once a player's score reaches `WIN_SCORE`, `check_winner`
moves the phase to game over with the winner fixed to that player
(player 0 taking priority in index order, as in the source), and every
subsequent combine, place, discard, or end-turn request on that match is
rejected with an error and leaves the match — in particular its phase —
unchanged. -/
theorem win_locks_match (g : GameState) (i : Nat) (hi : i < 2)
    (hwin : WIN_SCORE ≤ (g.players.get i).score) :
    g.check_winner.phase = .gameOver ∧
      (WIN_SCORE ≤ (g.players.get 0).score → g.check_winner.winner = some 0) ∧
      ((g.players.get 0).score < WIN_SCORE → g.check_winner.winner = some 1) ∧
      (∀ cache req env,
        combine g.check_winner cache req env =
          ⟨.error (.badRequest "Game is over"), g.check_winner, cache, []⟩) ∧
      (∀ req env,
        place g.check_winner req env =
          ⟨.error (.badRequest "Game is over"), g.check_winner, []⟩) ∧
      (∀ req,
        discard g.check_winner req =
          ⟨.error (.badRequest "Game is over"), g.check_winner, []⟩) ∧
      (∀ supply,
        end_turn g.check_winner supply =
          ⟨.error (.badRequest "Game is over"), g.check_winner, []⟩) := by
  have hgo : g.check_winner.phase = .gameOver ∧
      (WIN_SCORE ≤ (g.players.get 0).score → g.check_winner.winner = some 0) ∧
      ((g.players.get 0).score < WIN_SCORE → g.check_winner.winner = some 1) := by
    interval_cases i <;> (unfold GameState.check_winner; split_ifs <;> simp_all)
  refine ⟨hgo.1, hgo.2.1, hgo.2.2, ?_, ?_, ?_, ?_⟩
  · intro cache req env
    exact combine_of_gameover _ _ _ _ hgo.1
  · intro req env
    exact place_of_gameover _ _ _ hgo.1
  · intro req
    exact discard_of_gameover _ _ hgo.1
  · intro supply
    exact end_turn_of_gameover _ _ hgo.1

/-- A concrete board used by the witnesses. -/
def emptyBoard3 : List (List BoardCell) :=
  [[⟨"Animals", none⟩, ⟨"Tools", none⟩, ⟨"Plants", none⟩],
   [⟨"Metals", none⟩, ⟨"Foods", none⟩, ⟨"Gems", none⟩],
   [⟨"Machines", none⟩, ⟨"Storms", none⟩, ⟨"Rivers", none⟩]]

/-- A concrete match in which player 0 has just reached the winning score. -/
def gWonFixture : GameState :=
  ⟨"m", .pvp, .playing, 0, emptyBoard3, ⟨⟨[], 5, none⟩, ⟨[], 0, none⟩⟩, none, false⟩

/-- Witness for C2 at a concrete winning state. -/
theorem win_locks_match_witness :
    (0 < 2 ∧ WIN_SCORE ≤ (gWonFixture.players.get 0).score) ∧
      gWonFixture.check_winner.phase = .gameOver :=
  ⟨⟨by decide, by decide⟩, (win_locks_match gWonFixture 0 (by decide) (by decide)).1⟩

/-- **C4**: a combine request that passes validation and whose computed
cache key hits an entry marked impossible fails with the
ImpossibleCombination error, contacts no Oracle endpoint, and mutates
neither the match state nor the cache. -/
theorem combine_impossible_hit (g : GameState) (cache : Cache) (req : CombineRequest)
    (env : CombineEnv) (cached : CachedCard)
    (hphase : g.phase ≠ .gameOver)
    (hlo : 2 ≤ req.card_indices.length) (hhi : req.card_indices.length ≤ 4)
    (hidx : req.card_indices.all
      (fun idx => idx < (g.players.get g.current_player).hand.length) = true)
    (hmat : 1 ≤ ((selectedOf g req).filter
      (fun c => c.kind == "material" || c.kind == "crafted")).length)
    (hint : ((selectedOf g req).filter (fun c => c.kind == "intent")).length ≤ 1)
    (hhit : lookupCache cache (combineKeyOf g req) = some cached)
    (himp : cached.impossible = true) :
    combine g cache req env =
      ⟨.error (.unprocessable "Combination not possible"), g, cache, []⟩ := by
  unfold combine
  rw [if_neg hphase, if_neg (by omega), if_neg (by simp [hidx]), if_neg (by omega),
    if_neg (by omega)]
  simp only [hhit, himp, if_true]

def matEarth : HandCard := ⟨"Earth", "soil", "material", "/cards/materials/Earth.png", "e1e1", none⟩
def matWater : HandCard := ⟨"Water", "wet", "material", "/cards/materials/Water.png", "w2w2", none⟩

/-- A playing match whose current player holds two material cards. -/
def gCraft : GameState :=
  ⟨"m", .pvp, .playing, 0, emptyBoard3,
    ⟨⟨[matEarth, matWater], 0, none⟩, ⟨[], 0, none⟩⟩, none, false⟩

def reqEW : CombineRequest := ⟨[0, 1], false⟩

def impEntry : CachedCard := ⟨"Not possible", "", "", "k", false, true⟩

/-- A cache holding an impossible verdict for the Earth+Water combination. -/
def impCache : Cache := [(combineKeyOf gCraft reqEW, impEntry)]

/-- An environment whose collaborators are all unavailable: the claim's
conclusion is insensitive to it. -/
def envUnavailable : CombineEnv :=
  ⟨.transportError "down",
    ⟨.transportError "down", fun _ _ => .error "down", fun _ _ => .error "down"⟩⟩

/-- Witness for C4: the impossible-marked hit short-circuits even though
every collaborator is unreachable. -/
theorem combine_impossible_hit_witness :
    lookupCache impCache (combineKeyOf gCraft reqEW) = some impEntry ∧
      combine gCraft impCache reqEW envUnavailable =
        ⟨.error (.unprocessable "Combination not possible"), gCraft, impCache, []⟩ :=
  ⟨by simp [lookupCache, impCache],
    combine_impossible_hit gCraft impCache reqEW envUnavailable impEntry
      (by decide) (by decide) (by decide) (by decide) (by decide) (by decide)
      (by simp [lookupCache, impCache]) (by decide)⟩

/-- **C7**: placing on an empty cell under all preconditions succeeds: the
cell is set to the card with the acting player as owner, the card leaves
the hand, the acting player's score increases by exactly 1, and
`has_placed` is set. -/
theorem place_empty_cell (g : GameState) (req : PlaceRequest) (env : PlaceEnv)
    (hphase : g.phase ≠ .gameOver) (hplaced : g.has_placed = false)
    (hrow : req.row < 3) (hcol : req.col < 3)
    (hb : req.row < g.board.length) (hbr : req.col < (g.board.getD req.row []).length)
    (hidx : req.hand_index < (g.players.get g.current_player).hand.length)
    (hkind : ((g.players.get g.current_player).hand.getD req.hand_index dummyCard).kind =
      "crafted")
    (hempty : (boardGet g.board req.row req.col).card = none) :
    (place g req env).res = .ok ⟨"placed", none⟩ ∧
    (boardGet (place g req env).game.board req.row req.col).card =
      some ⟨⟨((g.players.get g.current_player).hand.getD req.hand_index dummyCard).name,
             ((g.players.get g.current_player).hand.getD req.hand_index dummyCard).description,
             ((g.players.get g.current_player).hand.getD req.hand_index dummyCard).image_path,
             ((g.players.get g.current_player).hand.getD req.hand_index dummyCard).id⟩,
            g.current_player⟩ ∧
    ((place g req env).game.players.get g.current_player).hand =
      (g.players.get g.current_player).hand.eraseIdx req.hand_index ∧
    ((place g req env).game.players.get g.current_player).score =
      (g.players.get g.current_player).score + 1 ∧
    (place g req env).game.has_placed = true ∧
    (place g req env).calls = [] := by
  have hplace : place g req env =
      ⟨.ok ⟨"placed", none⟩,
        placeCommit g g.current_player req.row req.col req.hand_index
          ⟨((g.players.get g.current_player).hand.getD req.hand_index dummyCard).name,
           ((g.players.get g.current_player).hand.getD req.hand_index dummyCard).description,
           ((g.players.get g.current_player).hand.getD req.hand_index dummyCard).image_path,
           ((g.players.get g.current_player).hand.getD req.hand_index dummyCard).id⟩, []⟩ := by
    unfold place
    rw [if_neg hphase, if_neg (by simp [hplaced]), if_neg (by omega), if_neg (by omega),
      if_neg (by simp only [ne_eq, Decidable.not_not]; exact hkind)]
    simp only [hempty]
  rw [hplace]
  unfold placeCommit
  simp only [hempty]
  refine ⟨by trivial, ?_, ?_, ?_, ?_, by trivial⟩
  · rw [check_winner_board]
    simp only [GameState.setPlayer]
    rw [boardGet_boardSetCard_same _ _ _ _ hb hbr]
  · rw [check_winner_players]
    simp [GameState.setPlayer, Players.get_set_same]
  · rw [check_winner_players]
    simp [GameState.setPlayer, Players.get_set_same]
  · rw [check_winner_has_placed]

/-- **C5**: a contest the defender wins (judge returns winner `"a"`) leaves
the match entirely unchanged — board, both hands, both scores — and does
not set `has_placed`, so the acting player may try again the same turn. -/
theorem place_defended (g : GameState) (req : PlaceRequest) (env : PlaceEnv)
    (placed : PlacedCard) (js : JudgeJson)
    (hphase : g.phase ≠ .gameOver) (hplaced : g.has_placed = false)
    (hrow : req.row < 3) (hcol : req.col < 3)
    (hidx : req.hand_index < (g.players.get g.current_player).hand.length)
    (hkind : ((g.players.get g.current_player).hand.getD req.hand_index dummyCard).kind =
      "crafted")
    (hcell : (boardGet g.board req.row req.col).card = some placed)
    (howner : placed.owner ≠ g.current_player)
    (hjudge : env.judgeResp = .ok js)
    (hwin : js.winnerField.getD "a" = "a") :
    ∃ j : Judgment, place g req env = ⟨.ok ⟨"defended", some j⟩, g, [.judgeEndpoint]⟩ := by
  refine ⟨⟨"a", js.reasonField.getD "", placed.card.name,
    ((g.players.get g.current_player).hand.getD req.hand_index dummyCard).name,
    (boardGet g.board req.row req.col).category⟩, ?_⟩
  unfold place
  rw [if_neg hphase, if_neg (by simp [hplaced]), if_neg (by omega), if_neg (by omega),
    if_neg (by simp only [ne_eq, Decidable.not_not]; exact hkind)]
  simp [hcell, hjudge, if_neg howner, hwin]

/-- **C6**: a contest the attacker wins decrements the prior owner's score
by exactly 1 with a floor at 0, increments the attacker's score by exactly
1, and overwrites the cell with the attacker's card. -/
theorem place_conquered (g : GameState) (req : PlaceRequest) (env : PlaceEnv)
    (placed : PlacedCard) (js : JudgeJson)
    (hphase : g.phase ≠ .gameOver) (hplaced : g.has_placed = false)
    (hrow : req.row < 3) (hcol : req.col < 3)
    (hb : req.row < g.board.length) (hbr : req.col < (g.board.getD req.row []).length)
    (hidx : req.hand_index < (g.players.get g.current_player).hand.length)
    (hkind : ((g.players.get g.current_player).hand.getD req.hand_index dummyCard).kind =
      "crafted")
    (hcell : (boardGet g.board req.row req.col).card = some placed)
    (howner : placed.owner ≠ g.current_player)
    (hcur : g.current_player < 2) (hown2 : placed.owner < 2)
    (hjudge : env.judgeResp = .ok js)
    (hwin : js.winnerField.getD "a" ≠ "a") :
    (∃ j : Judgment, (place g req env).res = .ok ⟨"conquered", some j⟩) ∧
    ((place g req env).game.players.get placed.owner).score =
      (g.players.get placed.owner).score - 1 ∧
    ((g.players.get placed.owner).score = 0 →
      ((place g req env).game.players.get placed.owner).score = 0) ∧
    ((place g req env).game.players.get g.current_player).score =
      (g.players.get g.current_player).score + 1 ∧
    (boardGet (place g req env).game.board req.row req.col).card =
      some ⟨⟨((g.players.get g.current_player).hand.getD req.hand_index dummyCard).name,
             ((g.players.get g.current_player).hand.getD req.hand_index dummyCard).description,
             ((g.players.get g.current_player).hand.getD req.hand_index dummyCard).image_path,
             ((g.players.get g.current_player).hand.getD req.hand_index dummyCard).id⟩,
            g.current_player⟩ := by
  have hplace : place g req env =
      ⟨.ok ⟨"conquered", some ⟨js.winnerField.getD "a", js.reasonField.getD "",
          placed.card.name,
          ((g.players.get g.current_player).hand.getD req.hand_index dummyCard).name,
          (boardGet g.board req.row req.col).category⟩⟩,
        placeCommit g g.current_player req.row req.col req.hand_index
          ⟨((g.players.get g.current_player).hand.getD req.hand_index dummyCard).name,
           ((g.players.get g.current_player).hand.getD req.hand_index dummyCard).description,
           ((g.players.get g.current_player).hand.getD req.hand_index dummyCard).image_path,
           ((g.players.get g.current_player).hand.getD req.hand_index dummyCard).id⟩,
        [.judgeEndpoint]⟩ := by
    unfold place
    rw [if_neg hphase, if_neg (by simp [hplaced]), if_neg (by omega), if_neg (by omega),
      if_neg (by simp only [ne_eq, Decidable.not_not]; exact hkind)]
    simp only [hcell, hjudge, if_neg howner, if_neg hwin]
  rw [hplace]
  unfold placeCommit
  simp only [hcell, if_pos howner]
  refine ⟨⟨_, rfl⟩, ?_, ?_, ?_, ?_⟩
  · rw [check_winner_players]
    simp only [GameState.setPlayer]
    rw [Players.get_set_other _ _ _ _ hcur hown2 (Ne.symm howner), Players.get_set_same]
  · intro h0
    rw [check_winner_players]
    simp only [GameState.setPlayer]
    rw [Players.get_set_other _ _ _ _ hcur hown2 (Ne.symm howner), Players.get_set_same]
    simp [h0]
  · rw [check_winner_players]
    simp only [GameState.setPlayer]
    rw [Players.get_set_same]
    simp [Players.get_set_other _ _ _ _ hown2 hcur howner]
  · rw [check_winner_board]
    simp only [GameState.setPlayer]
    rw [boardGet_boardSetCard_same _ _ _ _ hb hbr]

def craftedSprout : HandCard :=
  ⟨"Sprout", "green", "crafted", "/cards/crafted/Sprout-x.png", "s3s3", none⟩

/-- A board whose centre cell is owned by player 1. -/
def boardWithDefender : List (List BoardCell) :=
  [[⟨"Animals", none⟩, ⟨"Tools", none⟩, ⟨"Plants", none⟩],
   [⟨"Metals", none⟩, ⟨"Foods", some ⟨⟨"Golem", "stone", "/g.png", "g4g4"⟩, 1⟩⟩, ⟨"Gems", none⟩],
   [⟨"Machines", none⟩, ⟨"Storms", none⟩, ⟨"Rivers", none⟩]]

def gPlaceFixture : GameState :=
  ⟨"m", .pvp, .playing, 0, emptyBoard3,
    ⟨⟨[craftedSprout], 0, none⟩, ⟨[], 0, none⟩⟩, none, false⟩

def gContestFixture : GameState :=
  ⟨"m", .pvp, .playing, 0, boardWithDefender,
    ⟨⟨[craftedSprout], 2, none⟩, ⟨[], 1, none⟩⟩, none, false⟩

def reqMid : PlaceRequest := ⟨0, 1, 1⟩

def envJudgeA : PlaceEnv := ⟨.ok ⟨some "a", some "defender stands"⟩⟩

def envJudgeB : PlaceEnv := ⟨.ok ⟨some "b", some "attacker prevails"⟩⟩

/-- Witness for C7 at a concrete empty-cell placement. -/
theorem place_empty_cell_witness :
    (place gPlaceFixture reqMid envJudgeA).res = .ok ⟨"placed", none⟩ ∧
      ((place gPlaceFixture reqMid envJudgeA).game.players.get
        gPlaceFixture.current_player).score = 1 ∧
      (place gPlaceFixture reqMid envJudgeA).game.has_placed = true := by
  have h := place_empty_cell gPlaceFixture reqMid envJudgeA (by decide) (by decide)
    (by decide) (by decide) (by decide) (by decide) (by decide) (by decide) (by decide)
  exact ⟨h.1, h.2.2.2.1, h.2.2.2.2.1⟩

/-- Witness for C5 at a concrete lost contest. -/
theorem place_defended_witness :
    ∃ j : Judgment, place gContestFixture reqMid envJudgeA =
      ⟨.ok ⟨"defended", some j⟩, gContestFixture, [.judgeEndpoint]⟩ :=
  place_defended gContestFixture reqMid envJudgeA
    ⟨⟨"Golem", "stone", "/g.png", "g4g4"⟩, 1⟩ ⟨some "a", some "defender stands"⟩
    (by decide) (by decide) (by decide) (by decide) (by decide) (by decide) (by decide)
    (by decide) rfl (by decide)

/-- Witness for C6 at a concrete won contest (defender falls 1 → 0, attacker
rises 2 → 3). -/
theorem place_conquered_witness :
    ((place gContestFixture reqMid envJudgeB).game.players.get 1).score = 0 ∧
      ((place gContestFixture reqMid envJudgeB).game.players.get
        gContestFixture.current_player).score = 3 := by
  have h := place_conquered gContestFixture reqMid envJudgeB
    ⟨⟨"Golem", "stone", "/g.png", "g4g4"⟩, 1⟩ ⟨some "b", some "attacker prevails"⟩
    (by decide) (by decide) (by decide) (by decide) (by decide) (by decide) (by decide)
    (by decide) (by decide) (by decide) (by decide) (by decide) rfl (by decide)
  exact ⟨h.2.1, h.2.2.2.1⟩

theorem lookupCache_insert_same (c : Cache) (key : String) (card : CachedCard) :
    lookupCache (insertCache c key card) key = some card := by
  simp [lookupCache, insertCache]

/-- The synchronous cache-miss path of `combine`: the freshly created cache
entry is written with `discovered := true`. -/
theorem combine_miss_stores (g : GameState) (cache : Cache) (req : CombineRequest)
    (env : CombineEnv) (js : CombineJson) (sp : String)
    (hphase : g.phase ≠ .gameOver)
    (hlo : 2 ≤ req.card_indices.length) (hhi : req.card_indices.length ≤ 4)
    (hidx : req.card_indices.all
      (fun idx => idx < (g.players.get g.current_player).hand.length) = true)
    (hmat : 1 ≤ ((selectedOf g req).filter
      (fun c => c.kind == "material" || c.kind == "crafted")).length)
    (hint : ((selectedOf g req).filter (fun c => c.kind == "intent")).length ≤ 1)
    (hmiss : lookupCache cache (combineKeyOf g req) = none)
    (hresp : env.combineResp = .ok js)
    (hname : strContains (strToLower (js.nameField.getD "Unknown")) "not possible" = false)
    (hasync : req.async_image = false)
    (himg : runImagePipeline env.image (js.nameField.getD "Unknown") (combineKeyOf g req) =
      .ok sp) :
    (combine g cache req env).cache =
      insertCache cache (combineKeyOf g req)
        ⟨js.nameField.getD "Unknown", js.descriptionField.getD "", sp,
          combineKeyOf g req, true, false⟩ ∧
    (combine g cache req env).res =
      .ok ⟨js.nameField.getD "Unknown", js.descriptionField.getD "", some sp, true, false,
        none⟩ := by
  unfold combine
  rw [if_neg hphase, if_neg (by omega), if_neg (by simp [hidx]), if_neg (by omega),
    if_neg (by omega)]
  simp only [hmiss, hresp, hname, Bool.false_eq_true, if_false, hasync, himg]
  exact ⟨by trivial, by trivial⟩

/-- The cache-hit path of `combine`: an undiscovered entry is re-inserted
with `discovered := true` and reported as new; a discovered entry leaves
the cache untouched and is reported as not new. -/
theorem combine_hit_discovered (g : GameState) (cache : Cache) (req : CombineRequest)
    (env : CombineEnv) (cached : CachedCard)
    (hphase : g.phase ≠ .gameOver)
    (hlo : 2 ≤ req.card_indices.length) (hhi : req.card_indices.length ≤ 4)
    (hidx : req.card_indices.all
      (fun idx => idx < (g.players.get g.current_player).hand.length) = true)
    (hmat : 1 ≤ ((selectedOf g req).filter
      (fun c => c.kind == "material" || c.kind == "crafted")).length)
    (hint : ((selectedOf g req).filter (fun c => c.kind == "intent")).length ≤ 1)
    (hhit : lookupCache cache (combineKeyOf g req) = some cached)
    (himp : cached.impossible = false) :
    (cached.discovered = false →
      (combine g cache req env).cache =
        insertCache cache (combineKeyOf g req) { cached with discovered := true } ∧
      (combine g cache req env).res =
        .ok ⟨cached.name, cached.description, some cached.image_path, true, false, none⟩) ∧
    (cached.discovered = true →
      (combine g cache req env).cache = cache ∧
      (combine g cache req env).res =
        .ok ⟨cached.name, cached.description, some cached.image_path, false, false, none⟩) := by
  unfold combine
  rw [if_neg hphase, if_neg (by omega), if_neg (by simp [hidx]), if_neg (by omega),
    if_neg (by omega)]
  simp only [hhit, himp, Bool.false_eq_true, if_false]
  constructor
  · intro hdisc
    simp [hdisc]
  · intro hdisc
    simp [hdisc]

def envOkSprout : CombineEnv :=
  ⟨.ok ⟨some "Sprout", some "a sprout"⟩,
    ⟨.ok [1], fun _ _ => .ok [2], fun _ _ => .ok ()⟩⟩

/-- **C10 counterexample**: on an empty cache (so the combination has never
been crafted before), a successful combine stores the new entry with
`discovered = true` — not, as the claim says, as not-discovered. -/
theorem discovered_on_creation_counterexample :
    lookupCache [] (combineKeyOf gCraft reqEW) = none ∧
      (lookupCache (combine gCraft [] reqEW envOkSprout).cache
          (combineKeyOf gCraft reqEW)).map (·.discovered) = some true := by
  refine ⟨rfl, ?_⟩
  have h := combine_miss_stores gCraft [] reqEW envOkSprout ⟨some "Sprout", some "a sprout"⟩
    (servePathFor "Sprout" (combineKeyOf gCraft reqEW))
    (by decide) (by decide) (by decide) (by decide) (by decide) (by decide) rfl rfl
    (by decide) (by decide) rfl
  rw [h.1, lookupCache_insert_same]
  rfl

/-- **C10 (amended)**: an entry created by the game's synchronous
cache-miss path is stored already discovered (`discovered = true`), and
`is_new = true` is reported; on a later cache hit the `discovered` flag
flips to true only if the stored entry was still undiscovered (as happens
for entries pre-seeded by the offline explore tool), in which case
`is_new = true`; a hit on an already-discovered entry changes nothing and
reports `is_new = false`. -/
theorem discovered_flag_semantics (g : GameState) (cache : Cache) (req : CombineRequest)
    (env : CombineEnv)
    (hphase : g.phase ≠ .gameOver)
    (hlo : 2 ≤ req.card_indices.length) (hhi : req.card_indices.length ≤ 4)
    (hidx : req.card_indices.all
      (fun idx => idx < (g.players.get g.current_player).hand.length) = true)
    (hmat : 1 ≤ ((selectedOf g req).filter
      (fun c => c.kind == "material" || c.kind == "crafted")).length)
    (hint : ((selectedOf g req).filter (fun c => c.kind == "intent")).length ≤ 1) :
    (∀ js sp,
      lookupCache cache (combineKeyOf g req) = none →
      env.combineResp = .ok js →
      strContains (strToLower (js.nameField.getD "Unknown")) "not possible" = false →
      req.async_image = false →
      runImagePipeline env.image (js.nameField.getD "Unknown") (combineKeyOf g req) = .ok sp →
      (lookupCache (combine g cache req env).cache (combineKeyOf g req)).map (·.discovered) =
          some true ∧
        (combine g cache req env).res =
          .ok ⟨js.nameField.getD "Unknown", js.descriptionField.getD "", some sp, true, false,
            none⟩) ∧
    (∀ cached,
      lookupCache cache (combineKeyOf g req) = some cached →
      cached.impossible = false →
      (cached.discovered = false →
        (lookupCache (combine g cache req env).cache (combineKeyOf g req)).map (·.discovered) =
            some true ∧
          (combine g cache req env).res =
            .ok ⟨cached.name, cached.description, some cached.image_path, true, false, none⟩) ∧
      (cached.discovered = true →
        (combine g cache req env).cache = cache ∧
        (combine g cache req env).res =
          .ok ⟨cached.name, cached.description, some cached.image_path, false, false, none⟩)) := by
  constructor
  · intro js sp hmiss hresp hname hasync himg
    have h := combine_miss_stores g cache req env js sp hphase hlo hhi hidx hmat hint hmiss
      hresp hname hasync himg
    refine ⟨?_, h.2⟩
    rw [h.1, lookupCache_insert_same]
    rfl
  · intro cached hhit himp
    have h := combine_hit_discovered g cache req env cached hphase hlo hhi hidx hmat hint
      hhit himp
    refine ⟨fun hdisc => ⟨?_, (h.1 hdisc).2⟩, h.2⟩
    rw [(h.1 hdisc).1, lookupCache_insert_same]
    rfl

/-- Witness for the amended C10, hitting both the fresh-creation path and
the two hit paths at concrete inputs. -/
theorem discovered_flag_semantics_witness :
    (lookupCache (combine gCraft [] reqEW envOkSprout).cache
        (combineKeyOf gCraft reqEW)).map (·.discovered) = some true := by
  have h := discovered_flag_semantics gCraft [] reqEW envOkSprout
    (by decide) (by decide) (by decide) (by decide) (by decide) (by decide)
  exact (h.1 ⟨some "Sprout", some "a sprout"⟩
    (servePathFor "Sprout" (combineKeyOf gCraft reqEW)) rfl rfl (by decide) (by decide) rfl).1

/-- Everything in a match state except the hand cards' `image_path`s. -/
def coreView (g : GameState) :=
  (g.id, g.mode, g.phase, g.current_player, g.board, g.winner, g.has_placed,
   g.players.p0.score, g.players.p1.score, g.players.p0.wallet, g.players.p1.wallet,
   g.players.p0.hand.map HandCard.core, g.players.p1.hand.map HandCard.core)

/-- `finalize_combine` changes at most the `image_path` of a hand card. -/
theorem finalize_combine_coreView (g : GameState) (cache : Cache)
    (req : FinalizeCombineRequest) (env : FinalizeEnv) :
    coreView (finalize_combine g cache req env).game = coreView g := by
  unfold finalize_combine
  split
  · rfl
  · simp only [coreView, GameState.setPlayer, Players.set, Players.get]
    split_ifs <;> simp [fillPendingHand_core]

/-- **C3 (amended)**: once the phase is game over, combine, place, discard,
end-turn, bot-combine and bot-place are all rejected with an error and
leave the match unchanged; `finalize_combine` alone performs no phase
check, and can still fill in the `image_path` of a pending crafted card —
but every other component of the match state survives it unchanged. -/
theorem gameover_no_mutation_except_finalize (g : GameState) (h : g.phase = .gameOver) :
    (∀ cache req env,
      combine g cache req env = ⟨.error (.badRequest "Game is over"), g, cache, []⟩) ∧
    (∀ req env, place g req env = ⟨.error (.badRequest "Game is over"), g, []⟩) ∧
    (∀ req, discard g req = ⟨.error (.badRequest "Game is over"), g, []⟩) ∧
    (∀ supply, end_turn g supply = ⟨.error (.badRequest "Game is over"), g, []⟩) ∧
    (∀ cache env, (bot_combine g cache env).game = g ∧
      (bot_combine g cache env).cache = cache ∧
      ∃ m, (bot_combine g cache env).res = .error (.badRequest m)) ∧
    (∀ env, (bot_place g env).game = g ∧
      ∃ m, (bot_place g env).res = .error (.badRequest m)) ∧
    (∀ cache req env, coreView (finalize_combine g cache req env).game = coreView g) := by
  refine ⟨?_, ?_, ?_, ?_, ?_, ?_, ?_⟩
  · intro cache req env
    exact combine_of_gameover _ _ _ _ h
  · intro req env
    exact place_of_gameover _ _ _ h
  · intro req
    exact discard_of_gameover _ _ h
  · intro supply
    exact end_turn_of_gameover _ _ h
  · intro cache env
    obtain ⟨h1, h2, _, h4⟩ := bot_combine_of_gameover g cache env h
    exact ⟨h1, h2, h4⟩
  · intro env
    obtain ⟨h1, _, h3⟩ := bot_place_of_gameover g env h
    exact ⟨h1, h3⟩
  · intro cache req env
    exact finalize_combine_coreView g cache req env

/-- A finished match whose winner still holds a pending crafted card (empty
`image_path`). -/
def gOverPending : GameState :=
  ⟨"m", .pvp, .gameOver, 0, emptyBoard3,
    ⟨⟨[⟨"Sprout", "green", "crafted", "", "k1", none⟩], 5, none⟩, ⟨[], 0, none⟩⟩,
    some 0, false⟩

def reqFin : FinalizeCombineRequest := ⟨"k1", "Sprout", "green"⟩

def envFin : FinalizeEnv := ⟨⟨.ok [1], fun _ _ => .ok [2], fun _ _ => .ok ()⟩⟩

/-- **C3 counterexample**: `finalize_combine` mutates a match that is
already game over — it fills in the pending card's `image_path` — so the
claim that no operation mutates a gameover match is false. -/
theorem gameover_finalize_mutates_counterexample :
    gOverPending.phase = .gameOver ∧
      (finalize_combine gOverPending [] reqFin envFin).game ≠ gOverPending ∧
      ((finalize_combine gOverPending [] reqFin envFin).game.players.get 0).hand.map
          (·.image_path) = [servePathFor "Sprout" "k1"] := by
  refine ⟨rfl, ?_, by decide⟩
  decide

/-- Witness for the amended C3 at a concrete gameover match. -/
theorem gameover_no_mutation_except_finalize_witness :
    gOverPending.phase = .gameOver ∧
      (∀ req, discard gOverPending req =
        ⟨.error (.badRequest "Game is over"), gOverPending, []⟩) ∧
      (∀ cache req env,
        coreView (finalize_combine gOverPending cache req env).game = coreView gOverPending) := by
  have h := gameover_no_mutation_except_finalize gOverPending (by decide)
  exact ⟨by decide, h.2.2.1, h.2.2.2.2.2.2⟩

/-- **C8**: on every reachable match that is not over, end-turn succeeds,
leaves the departing player's hand at exactly `HAND_SIZE` cards, flips
`current_player` exactly once (0 to 1 or 1 to 0), and resets `has_placed`. -/
theorem end_turn_spec (g : GameState) (supply : Nat → HandCard)
    (hreach : Reachable g) (hphase : g.phase ≠ .gameOver) :
    (end_turn g supply).res = .ok () ∧
    ((end_turn g supply).game.players.get g.current_player).hand.length = HAND_SIZE ∧
    (end_turn g supply).game.current_player = 1 - g.current_player ∧
    (g.current_player = 0 → (end_turn g supply).game.current_player = 1) ∧
    (g.current_player = 1 → (end_turn g supply).game.current_player = 0) ∧
    (end_turn g supply).game.has_placed = false := by
  obtain ⟨_, _, _, h4, h5, h6⟩ := reachable_inv g hreach
  have hred : end_turn g supply = ⟨.ok (), g.advance_turn supply, []⟩ := by
    unfold end_turn
    rw [if_neg hphase]
  rw [hred]
  refine ⟨rfl, ?_, ?_, ?_, ?_, rfl⟩
  · unfold GameState.advance_turn GameState.replenish_hand GameState.setPlayer
    simp only []
    by_cases hcp : g.current_player = 0 <;>
      (simp_all [Players.set, Players.get, replenishLoop_length]; try omega)
  · rfl
  · intro h0
    show 1 - g.current_player = 1
    rw [h0]
  · intro h1'
    show 1 - g.current_player = 0
    rw [h1']

/-- **C9**: in every reachable match state, each player's score lies in
`[0, WIN_SCORE]`. -/
theorem score_bounds (g : GameState) (hreach : Reachable g) (i : Nat) (hi : i < 2) :
    0 ≤ (g.players.get i).score ∧ (g.players.get i).score ≤ WIN_SCORE := by
  obtain ⟨h1, h2, _, _, _, _⟩ := reachable_inv g hreach
  refine ⟨Nat.zero_le _, ?_⟩
  interval_cases i <;> simp_all [Players.get]

def hand7 : List HandCard :=
  [matEarth, matWater, matEarth, matWater, matEarth, matWater, matEarth]

/-- A concrete fresh match. -/
def gInitFixture : GameState :=
  ⟨"m0", .pvp, .playing, 0, emptyBoard3, ⟨⟨hand7, 0, none⟩, ⟨hand7, 0, none⟩⟩, none, false⟩

theorem gInitFixture_initial : Initial gInitFixture :=
  ⟨rfl, rfl, rfl, rfl, rfl, rfl, rfl, rfl, rfl, by decide⟩

/-- Witness for C8 at a concrete reachable match. -/
theorem end_turn_spec_witness :
    gInitFixture.phase ≠ .gameOver ∧
      ((end_turn gInitFixture (fun _ => matEarth)).game.players.get
        gInitFixture.current_player).hand.length = HAND_SIZE ∧
      (end_turn gInitFixture (fun _ => matEarth)).game.current_player = 1 ∧
      (end_turn gInitFixture (fun _ => matEarth)).game.has_placed = false := by
  have h := end_turn_spec gInitFixture (fun _ => matEarth)
    (Reachable.init _ gInitFixture_initial) (by decide)
  exact ⟨by decide, h.2.1, h.2.2.2.1 rfl, h.2.2.2.2.2⟩

/-- Witness for C9 at a concrete reachable match. -/
theorem score_bounds_witness :
    0 < 2 ∧ (gInitFixture.players.get 0).score ≤ WIN_SCORE :=
  ⟨by decide,
    (score_bounds gInitFixture (Reachable.init _ gInitFixture_initial) 0 (by decide)).2⟩

/-- Witness for C1 at a concrete permutation. -/
theorem crafted_id_permutation_invariant_witness :
    List.Perm ["bb", "aa", "cc"] ["cc", "aa", "bb"] ∧
      (compute_crafted_card_id ["bb", "aa", "cc"] (some "ii") =
          compute_crafted_card_id ["cc", "aa", "bb"] (some "ii") ∧
        (compute_crafted_card_id ["bb", "aa", "cc"] (some "ii")).length = 12) :=
  ⟨by decide, crafted_id_permutation_invariant _ _ _ (by decide)⟩

end Alchemaybe
